import Mathlib

/-!
Verification development for the Synthea note-noise pipeline
(`noise_synthea_notes.py`).

Modelling conventions:
* Python strings are lists of Unicode code points (`List Nat`);
  byte strings are lists of `Nat` below 256.
* `base64.b64decode(...).decode("utf-8")` and the reverse direction are
  embedded as executable functions on those lists.
* The OpenAI client is an oracle `Nat → Option (List Nat)`: attempt `i`
  either raises a transport exception (`none`) or yields `output_text`
  (`some raw`).
* Exceptions that the source does not catch are an `Except` error value;
  file writes to the audit log are the list of appended records.
-/

namespace NoiseNotes

/-- Code points of a Lean string literal, used to transcribe the Python
string constants of the source. -/
def pts (s : String) : List Nat := s.data.map Char.toNat

/-- Retry backoff schedule, `RETRY_DELAYS = [1, 2, 5, 10]` (line 16). -/
def RETRY_DELAYS : List Nat := [1, 2, 5, 10]

/-- Inter-document delay `DELAY = 0.35` seconds (line 15); retained only as
documentation, timing is not modelled. -/
def DELAY_CENTIS : Nat := 35

/-- The five persona descriptions `CLINICIAN_STYLES` (lines 19-25). -/
def CLINICIAN_STYLES : List (List Nat) :=
  [ pts "Short, blunt clinician with lots of abbreviations and light typos.",
    pts "Verbose clinician who repeats details and rambles a bit.",
    pts "Dictation-style note with odd punctuation and run-on sentences.",
    pts "Nursing-style succinct bullet-like lines with minimal punctuation.",
    pts "Uncertain clinician who uses phrases like \x27likely\x27, \x27?viral\x27, and mid-sentence restarts." ]

/-- The f-string of `build_prompt` (lines 28-40), with the two interpolation
holes spliced in by concatenation. -/
def build_prompt (original_text profile : List Nat) : List Nat :=
  pts "\nRewrite the clinical note below to sound more human and imperfect, while keeping all medical facts.\nUse the style described here: "
    ++ profile
    ++ pts "\nIntroduce mild typos, shorthand, pauses, and messy structure, but do NOT change diagnoses, medications, or objective facts. Only use ASCII characters.\n\nOriginal note:\n** start **\n"
    ++ original_text
    ++ pts "\n** end **\n\nReturn only the rewritten note.\n"

/-- Code points that Python `str.strip()` removes: the Unicode whitespace
characters. -/
def isPySpace (c : Nat) : Bool :=
  c == 32 || (9 ≤ c && c ≤ 13) || (28 ≤ c && c ≤ 31) || c == 133 || c == 160 ||
    c == 5760 || (8192 ≤ c && c ≤ 8202) || c == 8232 || c == 8233 ||
    c == 8239 || c == 8287 || c == 12288

/-- Python `str.strip()`: remove leading and trailing whitespace
(line 56, `response.output_text.strip()`). -/
def pyStrip (s : List Nat) : List Nat :=
  ((s.dropWhile isPySpace).reverse.dropWhile isPySpace).reverse

/-- One audit-log block written to `LOG_FILE` (lines 63-70): the prompt and
the accepted output, surrounded by fixed delimiter lines. -/
structure AuditRecord where
  prompt : List Nat
  output : List Nat
deriving DecidableEq

/-- Result of one invocation of `call_openai`: `ok = some rewritten` when a
response was accepted and returned, `ok = none` when the final
`RuntimeError` (line 77) was raised; `attempts` counts API attempts made and
`log` the audit records appended. -/
structure CallResult where
  ok : Option (List Nat)
  attempts : Nat
  log : List AuditRecord
deriving DecidableEq

/-- The retry loop of `call_openai` (lines 46-77).  `i` is the enumeration
index, `fuel` the number of list elements of `[0] + RETRY_DELAYS` still to
iterate.  A transport exception (`oracle i = none`) and a validation
rejection (`len(rewritten) <= 5`, which raises `ValueError`) both fall into
the `except` clause and continue the loop; an accepted response is logged
and returned at once. -/
def call_openai_loop (oracle : Nat → Option (List Nat)) (prompt : List Nat) :
    Nat → Nat → CallResult
  | _, 0 => { ok := none, attempts := 0, log := [] }
  | i, fuel + 1 =>
    match oracle i with
    | some raw =>
      let rewritten := pyStrip raw
      if rewritten.length ≤ 5 then
        let r := call_openai_loop oracle prompt (i + 1) fuel
        { r with attempts := r.attempts + 1 }
      else
        { ok := some rewritten, attempts := 1, log := [⟨prompt, rewritten⟩] }
    | none =>
      let r := call_openai_loop oracle prompt (i + 1) fuel
      { r with attempts := r.attempts + 1 }

/-- `call_openai(prompt)` iterates over `enumerate([0] + RETRY_DELAYS)`
(line 47). -/
def call_openai (oracle : Nat → Option (List Nat)) (prompt : List Nat) :
    CallResult :=
  call_openai_loop oracle prompt 0 (0 :: RETRY_DELAYS).length

/-- A single attempt's accepted outcome: the stripped response when the
attempt returned one and it passed the length check, otherwise `none`.
Mirrors lines 56-60 for one loop iteration. -/
def acceptAttempt (oracle : Nat → Option (List Nat)) (i : Nat) :
    Option (List Nat) :=
  match oracle i with
  | none => none
  | some raw =>
    if 5 < (pyStrip raw).length then some (pyStrip raw) else none

/-- The standard base64 alphabet, as code points, in index order. -/
def B64_CHARS : List Nat :=
  pts "ABCDEFGHIJKLMNOPQRSTUVWXYZabcdefghijklmnopqrstuvwxyz0123456789+/"

/-- Code point of the base64 digit with 6-bit value `i`. -/
def b64Alpha (i : Nat) : Nat := B64_CHARS.getD i 0

/-- 6-bit value of a base64 digit, `none` for characters outside the
alphabet (`=` included). -/
def b64Index (c : Nat) : Option Nat := B64_CHARS.findIdx? (fun x => x == c)

/-- `base64.b64encode` (line 95), grouping the byte string three bytes at a
time and padding the final group with `=` (code point 61). -/
def b64EncodeGroups : List Nat → List Nat
  | [] => []
  | [x] => [b64Alpha (x / 4), b64Alpha (x % 4 * 16), 61, 61]
  | [x, y] =>
    [b64Alpha (x / 4), b64Alpha (x % 4 * 16 + y / 16), b64Alpha (y % 16 * 4), 61]
  | x :: y :: z :: rest =>
    b64Alpha (x / 4) :: b64Alpha (x % 4 * 16 + y / 16) ::
      b64Alpha (y % 16 * 4 + z / 64) :: b64Alpha (z % 64) ::
      b64EncodeGroups rest

/-- `base64.b64encode(...).decode("ascii")`: the token is the base64 digit
string of the byte string. -/
def b64encode (bytes : List Nat) : List Nat := b64EncodeGroups bytes

/-- Decoding of a base64 digit stream four characters at a time, `=` only as
final-group padding; any other shape is a `binascii.Error` (`none`).  Models
`binascii.a2b_base64` on streams whose padding, if any, ends the input. -/
def b64DecodeGroups : List Nat → Option (List Nat)
  | [] => some []
  | c1 :: c2 :: c3 :: c4 :: rest =>
    match b64Index c1, b64Index c2 with
    | some a, some b =>
      if c3 = 61 then
        if c4 = 61 ∧ rest = [] then some [a * 4 + b / 16] else none
      else
        match b64Index c3 with
        | some c =>
          if c4 = 61 then
            if rest = [] then some [a * 4 + b / 16, b % 16 * 16 + c / 4]
            else none
          else
            match b64Index c4 with
            | some d =>
              match b64DecodeGroups rest with
              | some bs =>
                some ((a * 4 + b / 16) :: (b % 16 * 16 + c / 4) ::
                  (c % 4 * 64 + d) :: bs)
              | none => none
            | none => none
        | none => none
    | _, _ => none
  | _ => none

/-- `base64.b64decode(token)` on a Python `str` (line 82): the token must be
ASCII (else `str.encode("ascii")` raises), characters outside the alphabet
and padding are discarded, and the remaining digit stream is decoded in
groups of four. -/
def b64decode (token : List Nat) : Option (List Nat) :=
  if token.all (fun c => c < 128) then
    b64DecodeGroups (token.filter (fun c => (b64Index c).isSome || c == 61))
  else none

/-- UTF-8 encoding of one Unicode scalar value, as `str.encode("utf-8")`
produces it (line 95). -/
def utf8EncodeChar (c : Nat) : List Nat :=
  if c < 128 then [c]
  else if c < 2048 then [192 + c / 64, 128 + c % 64]
  else if c < 65536 then [224 + c / 4096, 128 + c / 64 % 64, 128 + c % 64]
  else [240 + c / 262144, 128 + c / 4096 % 64, 128 + c / 64 % 64, 128 + c % 64]

/-- `str.encode("utf-8")` over the whole text. -/
def utf8Encode (t : List Nat) : List Nat := (t.map utf8EncodeChar).flatten

/-- A UTF-8 continuation byte. -/
def isCont (b : Nat) : Bool := 128 ≤ b && b < 192

/-- One step of strict UTF-8 decoding as `bytes.decode("utf-8")` performs it
(line 82): reads the leading byte and its continuation bytes, rejecting
stray continuation bytes, overlong encodings, surrogates and values beyond
U+10FFFF; yields the scalar value and the remaining bytes. -/
def utf8DecodeOne (l : List Nat) : Option (Nat × List Nat) :=
  match l with
  | [] => none
  | b1 :: rest =>
    if b1 < 128 then some (b1, rest)
    else if b1 < 194 then none
    else if b1 < 224 then
      match rest with
      | b2 :: rest2 =>
        if isCont b2 then some ((b1 - 192) * 64 + (b2 - 128), rest2) else none
      | [] => none
    else if b1 < 240 then
      match rest with
      | b2 :: b3 :: rest3 =>
        if isCont b2 && isCont b3 then
          let c := (b1 - 224) * 4096 + (b2 - 128) * 64 + (b3 - 128)
          if 2048 ≤ c ∧ ¬(55296 ≤ c ∧ c < 57344) then some (c, rest3)
          else none
        else none
      | _ => none
    else if b1 < 245 then
      match rest with
      | b2 :: b3 :: b4 :: rest4 =>
        if isCont b2 && isCont b3 && isCont b4 then
          let c := (b1 - 240) * 262144 + (b2 - 128) * 4096 +
            (b3 - 128) * 64 + (b4 - 128)
          if 65536 ≤ c ∧ c < 1114112 then some (c, rest4) else none
        else none
      | _ => none
    else none

/-- Iterated scalar decoding; the fuel argument (instantiated with the byte
count, which bounds the number of scalars) makes the recursion structural. -/
def utf8DecodeFuel : Nat → List Nat → Option (List Nat)
  | _, [] => some []
  | 0, _ :: _ => none
  | fuel + 1, b1 :: rest =>
    match utf8DecodeOne (b1 :: rest) with
    | none => none
    | some (c, rem) =>
      match utf8DecodeFuel fuel rem with
      | some cs => some (c :: cs)
      | none => none

/-- Strict UTF-8 decoding of a whole byte string, `none` on
`UnicodeDecodeError`. -/
def utf8Decode (bytes : List Nat) : Option (List Nat) :=
  utf8DecodeFuel bytes.length bytes

/-- The encoding direction of line 95:
`base64.b64encode(new_text.encode("utf-8")).decode("ascii")`. -/
def encodeToken (t : List Nat) : List Nat := b64encode (utf8Encode t)

/-- The decoding direction of line 82:
`base64.b64decode(b64_text).decode("utf-8")`, `none` when either step
raises. -/
def decodeToken (token : List Nat) : Option (List Nat) :=
  match b64decode token with
  | some bs => utf8Decode bs
  | none => none

/-- A Unicode scalar value that `str.encode("utf-8")` accepts: below
U+110000 and not a surrogate. -/
def ValidScalar (c : Nat) : Prop := c < 1114112 ∧ ¬(55296 ≤ c ∧ c < 57344)

instance (c : Nat) : Decidable (ValidScalar c) := by
  unfold ValidScalar; infer_instance

/-- JSON values as `json.load` produces them (line 115); object fields keep
insertion order, keys are strings (code-point lists). -/
inductive JSON where
  | null : JSON
  | bool (b : Bool) : JSON
  | num (n : Int) : JSON
  | str (s : List Nat) : JSON
  | arr (xs : List JSON) : JSON
  | obj (fields : List (List Nat × JSON)) : JSON

/-- Python dict lookup `d[key]` / `d.get(key)`: value of the first field
with the given key. -/
def lookupField (fields : List (List Nat × JSON)) (key : List Nat) :
    Option JSON :=
  (fields.find? (fun f => f.1 == key)).map (fun f => f.2)

/-- Python dict assignment `d[key] = v`: replace the value in place at the
first field with the key, keeping its position, or append when absent. -/
def updateField : List (List Nat × JSON) → List Nat → JSON →
    List (List Nat × JSON)
  | [], key, v => [(key, v)]
  | f :: rest, key, v =>
    if f.1 == key then (f.1, v) :: rest else f :: updateField rest key v

/-- Python truthiness `if resource:` (line 122). -/
def truthy : JSON → Bool
  | .null => false
  | .bool b => b
  | .num n => n != 0
  | .str s => !s.isEmpty
  | .arr xs => !xs.isEmpty
  | .obj fs => !fs.isEmpty

/-- Key constants of the traversal. -/
def kData : List Nat := pts "data"

def kPresentedForm : List Nat := pts "presentedForm"

def kResource : List Nat := pts "resource"

def kEntry : List Nat := pts "entry"

/-- The uncaught exception of the run: the `RuntimeError` raised by
`call_openai` after exhausting its retries (line 77).  No function of the
source catches it. -/
inductive RunError where
  | exhaustedRetries : RunError
deriving DecidableEq

/-- The run's nondeterministic environment: `styles k` is the
`random.choice(CLINICIAN_STYLES)` draw of the `k`-th attachment processed
(line 87), and `responses k i` the service outcome of attempt `i` of the
`k`-th generation call (`none` = transport exception, `some raw` =
`output_text`). -/
structure Env where
  styles : Nat → List Nat
  responses : Nat → Nat → Option (List Nat)

/-- Decoding step of `rewrite_base64_note` (line 82) applied to the value
stored under `"data"`.  A non-string value makes `base64.b64decode` raise
`TypeError`, which the `except` clause of lines 83-85 also catches, so it is
a decode failure as well. -/
def decodeValue : JSON → Option (List Nat)
  | .str s => decodeToken s
  | _ => none

/-- `rewrite_base64_note(b64_text)` (lines 80-95) with the style draw and
the service oracle of this call passed explicitly.  On decode failure the
input value is returned unchanged (warning only); on decode success the
generation client runs, its terminal `RuntimeError` propagates, and an
accepted response is re-encoded.  The second component is the audit records
appended during the call. -/
def rewrite_base64_note (style : List Nat) (oracle : Nat → Option (List Nat))
    (b64_text : JSON) : Except RunError (JSON × List AuditRecord) :=
  match decodeValue b64_text with
  | none => .ok (b64_text, [])
  | some decoded =>
    let prompt := build_prompt decoded style
    let r := call_openai oracle prompt
    match r.ok with
    | none => .error .exhaustedRetries
    | some new_text => .ok (.str (b64encode (utf8Encode new_text)), r.log)

/-- One iteration of the `for pf in pf_list` loop of `process_resource`
(lines 104-108): an element carrying a `"data"` key has it rewritten in
place and `count += 1` runs; `k` numbers the generation slots used so far in
the run.  An element that is not a dict, or a dict without `"data"`, passes
through untouched with no generation call.  Returns the new element, the
count contribution, the next slot number and the audit records. -/
def processOneAttachment (env : Env) (k : Nat) (pf : JSON) :
    Except RunError (JSON × Nat × Nat × List AuditRecord) :=
  match pf with
  | .obj fields =>
    match lookupField fields kData with
    | some original =>
      match rewrite_base64_note (env.styles k) (env.responses k) original with
      | .error e => .error e
      | .ok (newVal, log1) =>
        .ok (.obj (updateField fields kData newVal), 1, k + 1, log1)
    | none => .ok (pf, 0, k, [])
  | _ => .ok (pf, 0, k, [])

/-- The whole `for pf in pf_list` loop (lines 104-108), accumulating the
count and the audit records over the list in order. -/
def processAttachments (env : Env) :
    Nat → List JSON → Except RunError (List JSON × Nat × Nat × List AuditRecord)
  | k, [] => .ok ([], 0, k, [])
  | k, pf :: rest =>
    match processOneAttachment env k pf with
    | .error e => .error e
    | .ok (pf', c1, k1, log1) =>
      match processAttachments env k1 rest with
      | .error e => .error e
      | .ok (rest', c2, k2, log2) =>
        .ok (pf' :: rest', c1 + c2, k2, log1 ++ log2)

/-- `process_resource(resource)` (lines 98-110).  A resource without a
`"presentedForm"` key returns count 0 untouched; one with a
`"presentedForm"` list has every element's `"data"` field rewritten.  A
non-dict resource or a non-list `"presentedForm"` value is modelled as a
no-op (the source would either skip or crash there; no document produced by
`json.load` from Synthea output takes that shape). -/
def process_resource (env : Env) (k : Nat) (resource : JSON) :
    Except RunError (JSON × Nat × Nat × List AuditRecord) :=
  match resource with
  | .obj fields =>
    match lookupField fields kPresentedForm with
    | some (.arr pfs) =>
      match processAttachments env k pfs with
      | .error e => .error e
      | .ok (pfs', c, k', log) =>
        .ok (.obj (updateField fields kPresentedForm (.arr pfs')), c, k', log)
    | some _ => .ok (resource, 0, k, [])
    | none => .ok (resource, 0, k, [])
  | _ => .ok (resource, 0, k, [])

/-- One iteration of the `for entry in data["entry"]` loop of `process_file`
(lines 119-123): a dict entry whose `"resource"` value is truthy has that
resource processed in place and the count accumulated; entries without a
truthy `"resource"` pass through.  A non-dict entry is modelled as a
pass-through (the source would raise on `entry.get`). -/
def processOneEntry (env : Env) (k : Nat) (e : JSON) :
    Except RunError (JSON × Nat × Nat × List AuditRecord) :=
  match e with
  | .obj fields =>
    match lookupField fields kResource with
    | some res =>
      if truthy res then
        match process_resource env k res with
        | .error err => .error err
        | .ok (res', c1, k1, log1) =>
          .ok (.obj (updateField fields kResource res'), c1, k1, log1)
      else .ok (e, 0, k, [])
    | none => .ok (e, 0, k, [])
  | _ => .ok (e, 0, k, [])

/-- The whole `for entry in data["entry"]` loop (lines 119-123). -/
def processEntries (env : Env) :
    Nat → List JSON → Except RunError (List JSON × Nat × Nat × List AuditRecord)
  | k, [] => .ok ([], 0, k, [])
  | k, e :: rest =>
    match processOneEntry env k e with
    | .error err => .error err
    | .ok (e', c1, k1, log1) =>
      match processEntries env k1 rest with
      | .error err => .error err
      | .ok (rest', c2, k2, log2) =>
        .ok (e' :: rest', c1 + c2, k2, log1 ++ log2)

/-- `process_file(path, out_dir)` (lines 113-133) up to the point where the
output file is written: the mutated document, the rewrite count, the next
attachment number and the audit records.  The write of `out_path` (lines
128-131) happens only after this computation succeeds; an `"entry"` value
that is not a list is modelled as a no-op. -/
def process_file (env : Env) (k : Nat) (doc : JSON) :
    Except RunError (JSON × Nat × Nat × List AuditRecord) :=
  match doc with
  | .obj fields =>
    match lookupField fields kEntry with
    | some (.arr entries) =>
      match processEntries env k entries with
      | .error e => .error e
      | .ok (entries', c, k', log) =>
        .ok (.obj (updateField fields kEntry (.arr entries')), c, k', log)
    | some _ => .ok (doc, 0, k, [])
    | none => .ok (doc, 0, k, [])
  | _ => .ok (doc, 0, k, [])

/-- The loop of `main` (lines 145-147): each file is processed and then its
output is written; the first uncaught `RuntimeError` aborts the run, so the
result pairs the outputs actually written (in order) with the error, if
any.  The document being processed when the error strikes is not written,
because `json.dump` runs only after `process_file`'s traversal finished. -/
def runBatch (env : Env) :
    Nat → List (List Nat × JSON) → List (List Nat × JSON) × Option RunError
  | _, [] => ([], none)
  | k, (name, doc) :: rest =>
    match process_file env k doc with
    | .error e => ([], some e)
    | .ok (doc', _, k', _) =>
      match runBatch env k' rest with
      | (written, err) => ((name, doc') :: written, err)

/-! Helper lemmas about `pyStrip` and the retry loop. -/

theorem head_dropWhile_false (p : Nat → Bool) :
    ∀ (l : List Nat) (x : Nat), (l.dropWhile p).head? = some x → p x = false := by
  intro l
  induction l with
  | nil => intro x h; simp at h
  | cons a t ih =>
    intro x h
    rw [List.dropWhile_cons] at h
    by_cases hp : p a = true
    · rw [if_pos hp] at h
      exact ih x h
    · rw [if_neg hp] at h
      simp only [List.head?_cons, Option.some.injEq] at h
      subst h
      exact Bool.not_eq_true _ ▸ (by simpa using hp)

theorem getLast_dropWhile_eq (p : Nat → Bool) :
    ∀ (l : List Nat), l.dropWhile p ≠ [] →
      (l.dropWhile p).getLast? = l.getLast? := by
  intro l
  induction l with
  | nil => intro h; simp at h
  | cons a t ih =>
    intro h
    rw [List.dropWhile_cons] at h ⊢
    by_cases hp : p a = true
    · rw [if_pos hp] at h ⊢
      have ht : t ≠ [] := by
        intro he; rw [he] at h; simp at h
      rw [ih h]
      cases t with
      | nil => exact absurd rfl ht
      | cons b l2 => rw [List.getLast?_cons_cons]
    · rw [if_neg hp]

theorem pyStrip_head_not_space (s : List Nat) (x : Nat)
    (h : (pyStrip s).head? = some x) : isPySpace x = false := by
  unfold pyStrip at h
  rw [List.head?_reverse] at h
  have hne : (s.dropWhile isPySpace).reverse.dropWhile isPySpace ≠ [] := by
    intro he; rw [he] at h; simp at h
  rw [getLast_dropWhile_eq _ _ hne, List.getLast?_reverse] at h
  exact head_dropWhile_false _ _ _ h

theorem pyStrip_getLast_not_space (s : List Nat) (x : Nat)
    (h : (pyStrip s).getLast? = some x) : isPySpace x = false := by
  unfold pyStrip at h
  rw [List.getLast?_reverse] at h
  exact head_dropWhile_false _ _ _ h

theorem call_openai_loop_ok_eq (oracle : Nat → Option (List Nat))
    (prompt : List Nat) :
    ∀ (fuel i : Nat), (call_openai_loop oracle prompt i fuel).ok =
      (List.range' i fuel).findSome? (acceptAttempt oracle) := by
  intro fuel
  induction fuel with
  | zero => intro i; rfl
  | succ n ih =>
    intro i
    rw [List.range'_succ, List.findSome?_cons]
    show (call_openai_loop oracle prompt i (n + 1)).ok = _
    unfold call_openai_loop acceptAttempt
    cases ho : oracle i with
    | none => simpa using ih (i + 1)
    | some raw =>
      simp only
      by_cases hlen : (pyStrip raw).length ≤ 5
      · rw [if_pos hlen, if_neg (by omega)]
        simpa using ih (i + 1)
      · rw [if_neg hlen, if_pos (by omega)]

theorem call_openai_loop_attempts_le (oracle : Nat → Option (List Nat))
    (prompt : List Nat) :
    ∀ (fuel i : Nat), (call_openai_loop oracle prompt i fuel).attempts ≤ fuel := by
  intro fuel
  induction fuel with
  | zero => intro i; exact Nat.le_refl 0
  | succ n ih =>
    intro i
    unfold call_openai_loop
    cases ho : oracle i with
    | none => simpa using ih (i + 1)
    | some raw =>
      simp only
      by_cases hlen : (pyStrip raw).length ≤ 5
      · rw [if_pos hlen]
        simpa using ih (i + 1)
      · rw [if_neg hlen]
        exact Nat.succ_le_succ (Nat.zero_le n)

theorem call_openai_loop_all_fail (oracle : Nat → Option (List Nat))
    (prompt : List Nat)
    (hfail : ∀ j raw, oracle j = some raw → (pyStrip raw).length ≤ 5) :
    ∀ (fuel i : Nat), (call_openai_loop oracle prompt i fuel).ok = none ∧
      (call_openai_loop oracle prompt i fuel).attempts = fuel := by
  intro fuel
  induction fuel with
  | zero => intro i; exact ⟨rfl, rfl⟩
  | succ n ih =>
    intro i
    unfold call_openai_loop
    cases ho : oracle i with
    | none =>
      have := ih (i + 1)
      simp only
      exact ⟨this.1, by rw [this.2]⟩
    | some raw =>
      have hlen := hfail i raw ho
      have := ih (i + 1)
      simp only [if_pos hlen]
      exact ⟨this.1, by rw [this.2]⟩

theorem call_openai_loop_log (oracle : Nat → Option (List Nat))
    (prompt : List Nat) :
    ∀ (fuel i : Nat), (call_openai_loop oracle prompt i fuel).log =
      match (call_openai_loop oracle prompt i fuel).ok with
      | some r => [⟨prompt, r⟩]
      | none => [] := by
  intro fuel
  induction fuel with
  | zero => intro i; rfl
  | succ n ih =>
    intro i
    unfold call_openai_loop
    cases ho : oracle i with
    | none => simpa using ih (i + 1)
    | some raw =>
      simp only
      by_cases hlen : (pyStrip raw).length ≤ 5
      · rw [if_pos hlen]
        simpa using ih (i + 1)
      · rw [if_neg hlen]

theorem call_openai_ok_eq (oracle : Nat → Option (List Nat))
    (prompt : List Nat) :
    (call_openai oracle prompt).ok =
      (List.range' 0 ((0 :: RETRY_DELAYS).length)).findSome?
        (acceptAttempt oracle) :=
  call_openai_loop_ok_eq oracle prompt _ 0

theorem call_openai_log_eq (oracle : Nat → Option (List Nat))
    (prompt : List Nat) :
    (call_openai oracle prompt).log =
      match (call_openai oracle prompt).ok with
      | some r => [⟨prompt, r⟩]
      | none => [] :=
  call_openai_loop_log oracle prompt _ 0

theorem acceptAttempt_some_elim (oracle : Nat → Option (List Nat)) (i : Nat)
    (r : List Nat) (h : acceptAttempt oracle i = some r) :
    ∃ raw, oracle i = some raw ∧ r = pyStrip raw ∧ 5 < r.length := by
  unfold acceptAttempt at h
  split at h
  · cases h
  · rename_i raw ho
    split at h
    · rename_i hl
      obtain rfl : pyStrip raw = r := by injection h
      exact ⟨raw, ho, rfl, hl⟩
    · cases h

theorem rewrite_base64_note_decode_ok (style : List Nat)
    (oracle : Nat → Option (List Nat)) (v : JSON) (decoded : List Nat)
    (hdv : decodeValue v = some decoded) :
    rewrite_base64_note style oracle v =
      match (call_openai oracle (build_prompt decoded style)).ok with
      | none => .error .exhaustedRetries
      | some new_text => .ok (.str (b64encode (utf8Encode new_text)),
          (call_openai oracle (build_prompt decoded style)).log) := by
  unfold rewrite_base64_note
  rw [hdv]

/-! Claim theorems about the Generation Client. -/

/-- C2: with the backoff schedule `RETRY_DELAYS` of length 4, a generator
whose every response fails (transport error or validation rejection) makes
`call_openai` perform exactly `RETRY_DELAYS.length + 1 = 5` attempts and
then signal terminal failure (`ok = none`, the `RuntimeError` of line 77);
moreover no run of `call_openai` ever makes more than 5 attempts. -/
theorem retry_exhaustion_after_schedule (oracle : Nat → Option (List Nat))
    (prompt : List Nat)
    (hfail : ∀ j raw, oracle j = some raw → (pyStrip raw).length ≤ 5) :
    (call_openai oracle prompt).ok = none ∧
      (call_openai oracle prompt).attempts = RETRY_DELAYS.length + 1 ∧
      RETRY_DELAYS.length + 1 = 5 ∧
      ∀ oracle2 : Nat → Option (List Nat),
        (call_openai oracle2 prompt).attempts ≤ RETRY_DELAYS.length + 1 := by
  refine ⟨?_, ?_, rfl, ?_⟩
  · exact (call_openai_loop_all_fail oracle prompt hfail _ 0).1
  · exact (call_openai_loop_all_fail oracle prompt hfail _ 0).2
  · intro oracle2
    exact call_openai_loop_attempts_le oracle2 prompt _ 0

theorem retry_exhaustion_after_schedule_witness :
    (call_openai (fun _ => none) []).ok = none ∧
      (call_openai (fun _ => none) []).attempts = RETRY_DELAYS.length + 1 ∧
      RETRY_DELAYS.length + 1 = 5 ∧
      ∀ oracle2 : Nat → Option (List Nat),
        (call_openai oracle2 []).attempts ≤ RETRY_DELAYS.length + 1 :=
  retry_exhaustion_after_schedule (fun _ => none) [] (fun _ _ h => nomatch h)

/-- C6: `call_openai` accepts a response exactly when its stripped length is
strictly greater than 5: the returned text is the first per-attempt outcome
accepted under that threshold over the 5 attempts, every returned text has
length above 5 (so a response at or below the threshold — the empty string
included — is never returned), and an attempt's outcome is accepted iff the
stripped response exceeds the threshold, a rejection leaving the loop to
retry. -/
theorem acceptance_iff_above_threshold (oracle : Nat → Option (List Nat))
    (prompt : List Nat) :
    (call_openai oracle prompt).ok =
        (List.range (RETRY_DELAYS.length + 1)).findSome?
          (acceptAttempt oracle) ∧
      (∀ r, (call_openai oracle prompt).ok = some r → 5 < r.length) ∧
      (∀ i raw, oracle i = some raw → (pyStrip raw).length ≤ 5 →
        acceptAttempt oracle i = none) ∧
      (∀ i raw, oracle i = some raw → 5 < (pyStrip raw).length →
        acceptAttempt oracle i = some (pyStrip raw)) := by
  refine ⟨?_, ?_, ?_, ?_⟩
  · rw [List.range_eq_range']
    exact call_openai_ok_eq oracle prompt
  · intro r h
    rw [call_openai_ok_eq oracle prompt] at h
    obtain ⟨a, _, ha⟩ := List.exists_of_findSome?_eq_some h
    obtain ⟨raw, _, _, hl⟩ := acceptAttempt_some_elim oracle a r ha
    exact hl
  · intro i raw ho hl
    unfold acceptAttempt
    rw [ho]
    exact if_neg (by omega)
  · intro i raw ho hl
    unfold acceptAttempt
    rw [ho]
    exact if_pos hl

theorem acceptance_iff_above_threshold_witness :
    (call_openai (fun _ => some (pts " a response ")) []).ok =
      some (pts "a response") ∧ 5 < (pts "a response").length := by
  have h := acceptance_iff_above_threshold (fun _ => some (pts " a response ")) []
  constructor
  · rw [h.1]; decide
  · exact h.2.1 _ (by rw [h.1]; decide)

/-- C4: exactly one audit record is appended per accepted response, pairing
the prompt with the text returned, and it is part of the state `call_openai`
returns with that response; a call that ends in terminal failure appends
nothing (rejected and failed attempts log nothing), and an attachment
skipped on decode failure appends zero records. -/
theorem one_audit_record_per_accepted (oracle : Nat → Option (List Nat))
    (prompt : List Nat) :
    ((call_openai oracle prompt).ok = none →
        (call_openai oracle prompt).log = []) ∧
      (∀ r, (call_openai oracle prompt).ok = some r →
        (call_openai oracle prompt).log = [⟨prompt, r⟩]) ∧
      (∀ style v, decodeValue v = none →
        rewrite_base64_note style oracle v = .ok (v, [])) := by
  refine ⟨?_, ?_, ?_⟩
  · intro h
    rw [call_openai_log_eq oracle prompt, h]
  · intro r h
    rw [call_openai_log_eq oracle prompt, h]
  · intro style v hv
    unfold rewrite_base64_note
    rw [hv]

theorem one_audit_record_per_accepted_witness :
    (call_openai (fun _ => some (pts "accepted response")) []).log =
        [⟨[], pts "accepted response"⟩] ∧
      rewrite_base64_note [] (fun _ => none) (.str (pts "AAAAA")) =
        .ok (.str (pts "AAAAA"), []) := by
  have h := one_audit_record_per_accepted
    (fun _ => some (pts "accepted response")) []
  constructor
  · exact h.2.1 (pts "accepted response") (by decide)
  · exact (one_audit_record_per_accepted (fun _ => none) []).2.2 []
      (.str (pts "AAAAA")) (by decide)

/-- C9: every text `call_openai` accepts is the whitespace-stripped form of
some raw service response: its length check ran on the stripped text, it has
no leading or trailing whitespace, the same text is logged and returned, and
`rewrite_base64_note` re-encodes exactly that text into the attachment. -/
theorem accepted_text_stripped (oracle : Nat → Option (List Nat))
    (prompt : List Nat) (r : List Nat)
    (h : (call_openai oracle prompt).ok = some r) :
    5 < r.length ∧
      (∀ x, r.head? = some x → isPySpace x = false) ∧
      (∀ x, r.getLast? = some x → isPySpace x = false) ∧
      (∃ i raw, oracle i = some raw ∧ r = pyStrip raw) ∧
      (call_openai oracle prompt).log = [⟨prompt, r⟩] ∧
      (∀ style v decoded, decodeValue v = some decoded →
        build_prompt decoded style = prompt →
        rewrite_base64_note style oracle v =
          .ok (.str (b64encode (utf8Encode r)), [⟨prompt, r⟩])) := by
  have h2 := h
  rw [call_openai_ok_eq oracle prompt] at h2
  obtain ⟨a, _, ha⟩ := List.exists_of_findSome?_eq_some h2
  obtain ⟨raw, ho, hr, hlen⟩ := acceptAttempt_some_elim oracle a r ha
  refine ⟨hlen, ?_, ?_, ⟨a, raw, ho, hr⟩, ?_, ?_⟩
  · intro x hx
    rw [hr] at hx
    exact pyStrip_head_not_space raw x hx
  · intro x hx
    rw [hr] at hx
    exact pyStrip_getLast_not_space raw x hx
  · rw [call_openai_log_eq oracle prompt, h]
  · intro style v decoded hdv hbp
    rw [rewrite_base64_note_decode_ok style oracle v decoded hdv, hbp, h,
      call_openai_log_eq oracle prompt, h]

theorem accepted_text_stripped_witness :
    (call_openai (fun _ => some (pts " a response ")) []).ok =
        some (pts "a response") ∧
      5 < (pts "a response").length ∧
      (∀ x, (pts "a response").head? = some x → isPySpace x = false) := by
  have hok : (call_openai (fun _ => some (pts " a response ")) []).ok =
      some (pts "a response") := by
    rw [call_openai_ok_eq]; decide
  have h := accepted_text_stripped (fun _ => some (pts " a response ")) []
    (pts "a response") hok
  exact ⟨hok, h.1, h.2.1⟩

/-! Codec roundtrip development. -/

theorem b64Index_b64Alpha_fin : ∀ i : Fin 64, b64Index (b64Alpha i.val) = some i.val := by
  decide

theorem b64Alpha_lt128_fin : ∀ i : Fin 64, b64Alpha i.val < 128 := by
  decide

theorem b64Alpha_ne61_fin : ∀ i : Fin 64, b64Alpha i.val ≠ 61 := by
  decide

theorem b64Index_alpha (i : Nat) (h : i < 64) : b64Index (b64Alpha i) = some i :=
  b64Index_b64Alpha_fin ⟨i, h⟩

theorem b64Alpha_lt128 (i : Nat) (h : i < 64) : b64Alpha i < 128 :=
  b64Alpha_lt128_fin ⟨i, h⟩

theorem b64Alpha_ne61 (i : Nat) (h : i < 64) : b64Alpha i ≠ 61 :=
  b64Alpha_ne61_fin ⟨i, h⟩

theorem b64DecodeGroups_encodeGroups :
    ∀ (bs : List Nat), (∀ b ∈ bs, b < 256) →
      b64DecodeGroups (b64EncodeGroups bs) = some bs := by
  intro bs
  induction bs using b64EncodeGroups.induct with
  | case1 => intro _; rfl
  | case2 x =>
    intro h
    have hx : x < 256 := h x (by simp)
    show b64DecodeGroups [b64Alpha (x / 4), b64Alpha (x % 4 * 16), 61, 61] =
      some [x]
    simp only [b64DecodeGroups, b64Index_alpha (x / 4) (by omega),
      b64Index_alpha (x % 4 * 16) (by omega)]
    have hv : x / 4 * 4 + x % 4 * 16 / 16 = x := by omega
    simp
    omega
  | case3 x y =>
    intro h
    have hx : x < 256 := h x (by simp)
    have hy : y < 256 := h y (by simp)
    show b64DecodeGroups [b64Alpha (x / 4), b64Alpha (x % 4 * 16 + y / 16),
      b64Alpha (y % 16 * 4), 61] = some [x, y]
    simp only [b64DecodeGroups, b64Index_alpha (x / 4) (by omega),
      b64Index_alpha (x % 4 * 16 + y / 16) (by omega),
      b64Index_alpha (y % 16 * 4) (by omega),
      b64Alpha_ne61 (y % 16 * 4) (by omega)]
    simp
    omega
  | case4 x y z rest ih =>
    intro h
    have hx : x < 256 := h x (by simp)
    have hy : y < 256 := h y (by simp)
    have hz : z < 256 := h z (by simp)
    have hrest := ih (fun b hb => h b (by simp [hb]))
    show b64DecodeGroups (b64Alpha (x / 4) :: b64Alpha (x % 4 * 16 + y / 16) ::
      b64Alpha (y % 16 * 4 + z / 64) :: b64Alpha (z % 64) ::
      b64EncodeGroups rest) = some (x :: y :: z :: rest)
    simp only [b64DecodeGroups, b64Index_alpha (x / 4) (by omega),
      b64Index_alpha (x % 4 * 16 + y / 16) (by omega),
      b64Index_alpha (y % 16 * 4 + z / 64) (by omega),
      b64Index_alpha (z % 64) (by omega),
      b64Alpha_ne61 (y % 16 * 4 + z / 64) (by omega),
      b64Alpha_ne61 (z % 64) (by omega), hrest]
    simp
    omega

theorem mem_b64EncodeGroups :
    ∀ (bs : List Nat), (∀ b ∈ bs, b < 256) → ∀ (c : Nat), c ∈ b64EncodeGroups bs →
      c = 61 ∨ ∃ v, v < 64 ∧ c = b64Alpha v := by
  intro bs
  induction bs using b64EncodeGroups.induct with
  | case1 => intro _ c hc; simp [b64EncodeGroups] at hc
  | case2 x =>
    intro h c hc
    have hx : x < 256 := h x (by simp)
    simp [b64EncodeGroups] at hc
    rcases hc with rfl | rfl | rfl
    · exact Or.inr ⟨x / 4, by omega, rfl⟩
    · exact Or.inr ⟨x % 4 * 16, by omega, rfl⟩
    · exact Or.inl rfl
  | case3 x y =>
    intro h c hc
    have hx : x < 256 := h x (by simp)
    have hy : y < 256 := h y (by simp)
    simp [b64EncodeGroups] at hc
    rcases hc with rfl | rfl | rfl | rfl
    · exact Or.inr ⟨x / 4, by omega, rfl⟩
    · exact Or.inr ⟨x % 4 * 16 + y / 16, by omega, rfl⟩
    · exact Or.inr ⟨y % 16 * 4, by omega, rfl⟩
    · exact Or.inl rfl
  | case4 x y z rest ih =>
    intro h c hc
    have hx : x < 256 := h x (by simp)
    have hy : y < 256 := h y (by simp)
    have hz : z < 256 := h z (by simp)
    simp only [b64EncodeGroups, List.mem_cons] at hc
    rcases hc with rfl | rfl | rfl | rfl | hmem
    · exact Or.inr ⟨x / 4, by omega, rfl⟩
    · exact Or.inr ⟨x % 4 * 16 + y / 16, by omega, rfl⟩
    · exact Or.inr ⟨y % 16 * 4 + z / 64, by omega, rfl⟩
    · exact Or.inr ⟨z % 64, by omega, rfl⟩
    · exact ih (fun b hb => h b (by simp [hb])) c hmem

theorem b64_roundtrip (bs : List Nat) (h : ∀ b ∈ bs, b < 256) :
    b64decode (b64encode bs) = some bs := by
  have hmem := mem_b64EncodeGroups bs h
  unfold b64decode b64encode
  rw [if_pos]
  · rw [List.filter_eq_self.mpr]
    · exact b64DecodeGroups_encodeGroups bs h
    · intro c hc
      rcases hmem c hc with rfl | ⟨v, hv, rfl⟩
      · simp
      · simp [b64Index_alpha v hv]
  · rw [List.all_eq_true]
    intro c hc
    rcases hmem c hc with rfl | ⟨v, hv, rfl⟩
    · simp
    · simpa using b64Alpha_lt128 v hv

theorem utf8EncodeChar_lt256 (c : Nat) (hc : ValidScalar c) :
    ∀ b ∈ utf8EncodeChar c, b < 256 := by
  obtain ⟨h1, _⟩ := hc
  unfold utf8EncodeChar
  by_cases ha : c < 128
  · rw [if_pos ha]; intro b hb; simp at hb; omega
  · rw [if_neg ha]
    by_cases hb2 : c < 2048
    · rw [if_pos hb2]; intro b hb; simp at hb
      rcases hb with rfl | rfl <;> omega
    · rw [if_neg hb2]
      by_cases hb3 : c < 65536
      · rw [if_pos hb3]; intro b hb; simp at hb
        rcases hb with rfl | rfl | rfl <;> omega
      · rw [if_neg hb3]; intro b hb; simp at hb
        rcases hb with rfl | rfl | rfl | rfl <;> omega

theorem utf8Encode_lt256 (t : List Nat) (h : ∀ c ∈ t, ValidScalar c) :
    ∀ b ∈ utf8Encode t, b < 256 := by
  intro b hb
  unfold utf8Encode at hb
  rw [List.mem_flatten] at hb
  obtain ⟨l, hl, hbl⟩ := hb
  rw [List.mem_map] at hl
  obtain ⟨c, hc, rfl⟩ := hl
  exact utf8EncodeChar_lt256 c (h c hc) b hbl

set_option maxRecDepth 8192 in
theorem utf8DecodeOne_length (l : List Nat) (c : Nat) (rem : List Nat)
    (h : utf8DecodeOne l = some (c, rem)) : rem.length < l.length := by
  unfold utf8DecodeOne at h
  dsimp only at h
  repeat' split at h
  all_goals
    first
    | exact Option.noConfusion h
    | (simp only [Option.some.injEq, Prod.mk.injEq] at h
       obtain ⟨-, rfl⟩ := h
       simp only [List.length_cons]
       omega)

theorem utf8DecodeOne_encodeChar (c : Nat) (hc : ValidScalar c)
    (bs : List Nat) :
    utf8DecodeOne (utf8EncodeChar c ++ bs) = some (c, bs) := by
  obtain ⟨h1, h2⟩ := hc
  by_cases ha : c < 128
  · rw [show utf8EncodeChar c = [c] from by rw [utf8EncodeChar, if_pos ha]]
    show utf8DecodeOne (c :: bs) = some (c, bs)
    unfold utf8DecodeOne
    dsimp only
    rw [if_pos ha]
  · by_cases hb2 : c < 2048
    · rw [show utf8EncodeChar c = [192 + c / 64, 128 + c % 64] from by
        rw [utf8EncodeChar, if_neg ha, if_pos hb2]]
      show utf8DecodeOne ((192 + c / 64) :: (128 + c % 64) :: bs) = some (c, bs)
      unfold utf8DecodeOne
      dsimp only
      rw [if_neg (by omega), if_neg (by omega), if_pos (by omega),
        if_pos (show isCont (128 + c % 64) = true by
          simp only [isCont, Bool.and_eq_true, decide_eq_true_eq]; omega)]
      have hv : (192 + c / 64 - 192) * 64 + (128 + c % 64 - 128) = c := by omega
      rw [hv]
    · by_cases hb3 : c < 65536
      · rw [show utf8EncodeChar c =
            [224 + c / 4096, 128 + c / 64 % 64, 128 + c % 64] from by
          rw [utf8EncodeChar, if_neg ha, if_neg hb2, if_pos hb3]]
        show utf8DecodeOne
          ((224 + c / 4096) :: (128 + c / 64 % 64) :: (128 + c % 64) :: bs) =
            some (c, bs)
        unfold utf8DecodeOne
        dsimp only
        rw [if_neg (by omega), if_neg (by omega), if_neg (by omega),
          if_pos (by omega),
          if_pos (show (isCont (128 + c / 64 % 64) &&
              isCont (128 + c % 64)) = true by
            simp only [isCont, Bool.and_eq_true, decide_eq_true_eq]; omega)]
        have hv : (224 + c / 4096 - 224) * 4096 + (128 + c / 64 % 64 - 128) * 64 +
            (128 + c % 64 - 128) = c := by omega
        rw [hv, if_pos ⟨by omega, h2⟩]
      · rw [show utf8EncodeChar c =
            [240 + c / 262144, 128 + c / 4096 % 64, 128 + c / 64 % 64, 128 + c % 64]
            from by rw [utf8EncodeChar, if_neg ha, if_neg hb2, if_neg hb3]]
        show utf8DecodeOne ((240 + c / 262144) :: (128 + c / 4096 % 64) ::
          (128 + c / 64 % 64) :: (128 + c % 64) :: bs) = some (c, bs)
        unfold utf8DecodeOne
        dsimp only
        rw [if_neg (by omega), if_neg (by omega), if_neg (by omega),
          if_neg (by omega), if_pos (by omega),
          if_pos (show (isCont (128 + c / 4096 % 64) && isCont (128 + c / 64 % 64) &&
              isCont (128 + c % 64)) = true by
            simp only [isCont, Bool.and_eq_true, decide_eq_true_eq]; omega)]
        have hv : (240 + c / 262144 - 240) * 262144 + (128 + c / 4096 % 64 - 128) * 4096 +
            (128 + c / 64 % 64 - 128) * 64 + (128 + c % 64 - 128) = c := by omega
        rw [hv, if_pos ⟨by omega, by omega⟩]

theorem utf8DecodeFuel_congr :
    ∀ (fuel1 : Nat) (l : List Nat) (fuel2 : Nat), l.length ≤ fuel1 →
      l.length ≤ fuel2 → utf8DecodeFuel fuel1 l = utf8DecodeFuel fuel2 l := by
  intro fuel1
  induction fuel1 with
  | zero =>
    intro l fuel2 hl1 _
    obtain rfl : l = [] := List.eq_nil_of_length_eq_zero (Nat.le_zero.mp hl1)
    cases fuel2 <;> rfl
  | succ f1 ih =>
    intro l fuel2 hl1 hl2
    cases l with
    | nil => cases fuel2 <;> rfl
    | cons b1 rest =>
      cases fuel2 with
      | zero => simp at hl2
      | succ f2 =>
        show utf8DecodeFuel (f1 + 1) (b1 :: rest) =
          utf8DecodeFuel (f2 + 1) (b1 :: rest)
        rw [utf8DecodeFuel, utf8DecodeFuel]
        cases hone : utf8DecodeOne (b1 :: rest) with
        | none => rfl
        | some pr =>
          obtain ⟨c, rem⟩ := pr
          have hlt := utf8DecodeOne_length (b1 :: rest) c rem hone
          dsimp only
          rw [ih rem f2 (by simp at hl1 hlt ⊢; omega)
            (by simp at hl2 hlt ⊢; omega)]

theorem utf8Decode_encodeChar (c : Nat) (hc : ValidScalar c) (bs : List Nat) :
    utf8Decode (utf8EncodeChar c ++ bs) =
      match utf8Decode bs with
      | some cs => some (c :: cs)
      | none => none := by
  have hone := utf8DecodeOne_encodeChar c hc bs
  cases he : utf8EncodeChar c with
  | nil =>
    exfalso
    have : utf8EncodeChar c ≠ [] := by
      unfold utf8EncodeChar
      repeat' split
      all_goals simp
    exact this he
  | cons e0 etail =>
    rw [he] at hone
    show utf8Decode ((e0 :: etail) ++ bs) = _
    unfold utf8Decode
    rw [show (e0 :: etail) ++ bs = e0 :: (etail ++ bs) from rfl]
    rw [show (e0 :: (etail ++ bs)).length = (etail ++ bs).length + 1 from rfl]
    rw [utf8DecodeFuel]
    rw [show e0 :: (etail ++ bs) = (e0 :: etail) ++ bs from rfl, hone]
    dsimp only
    rw [utf8DecodeFuel_congr (etail ++ bs).length bs bs.length
      (by simp) (Nat.le_refl _)]

theorem utf8_roundtrip (t : List Nat) (h : ∀ c ∈ t, ValidScalar c) :
    utf8Decode (utf8Encode t) = some t := by
  induction t with
  | nil => rfl
  | cons c t ih =>
    have hsplit : utf8Encode (c :: t) = utf8EncodeChar c ++ utf8Encode t := by
      simp [utf8Encode]
    rw [hsplit, utf8Decode_encodeChar c (h c (by simp)) (utf8Encode t),
      ih (fun x hx => h x (by simp [hx]))]

/-- C5: for every representable text `t` (every code point a Unicode scalar
value, as `str.encode("utf-8")` requires), decoding the encoding of `t` —
base64 over the UTF-8 bytes, the codec of `rewrite_base64_note` lines 82 and
95 — yields `t` exactly. -/
theorem codec_roundtrip (t : List Nat) (h : ∀ c ∈ t, ValidScalar c) :
    decodeToken (encodeToken t) = some t := by
  unfold decodeToken encodeToken
  rw [b64_roundtrip (utf8Encode t) (utf8Encode_lt256 t h)]
  exact utf8_roundtrip t h

theorem codec_roundtrip_witness :
    (∀ c ∈ pts "SOAP note: pt c/o mild pain, afebrile ✓", ValidScalar c) ∧
      decodeToken (encodeToken (pts "SOAP note: pt c/o mild pain, afebrile ✓")) =
        some (pts "SOAP note: pt c/o mild pain, afebrile ✓") :=
  ⟨by decide, codec_roundtrip _ (by decide)⟩

/-! Structural-preservation machinery: scrubbing a document masks exactly
the `presentedForm[*].data` values, so scrub-equality says every other part
of the document is unchanged. -/

/-- Mask the `"data"` value of a `presentedForm` element. -/
def scrubAttachment : JSON → JSON
  | .obj fields =>
    .obj (fields.map (fun f => if f.1 == kData then (f.1, JSON.null) else f))
  | v => v

/-- Mask all `"data"` values of a `presentedForm` list. -/
def scrubPF : JSON → JSON
  | .arr xs => .arr (xs.map scrubAttachment)
  | v => v

/-- Mask all `presentedForm[*].data` values of a resource. -/
def scrubResource : JSON → JSON
  | .obj fields =>
    .obj (fields.map
      (fun f => if f.1 == kPresentedForm then (f.1, scrubPF f.2) else f))
  | v => v

/-- Mask all `resource.presentedForm[*].data` values of an entry. -/
def scrubEntry : JSON → JSON
  | .obj fields =>
    .obj (fields.map
      (fun f => if f.1 == kResource then (f.1, scrubResource f.2) else f))
  | v => v

/-- Mask the same values across an entry list. -/
def scrubEntries : JSON → JSON
  | .arr xs => .arr (xs.map scrubEntry)
  | v => v

/-- Mask all `entry[*].resource.presentedForm[*].data` values of a
document. -/
def scrubDoc : JSON → JSON
  | .obj fields =>
    .obj (fields.map
      (fun f => if f.1 == kEntry then (f.1, scrubEntries f.2) else f))
  | v => v

theorem lookupField_nil (key : List Nat) : lookupField [] key = none := rfl

theorem lookupField_cons_pos (f : List Nat × JSON)
    (rest : List (List Nat × JSON)) (key : List Nat)
    (hk : (f.1 == key) = true) :
    lookupField (f :: rest) key = some f.2 := by
  simp [lookupField, List.find?_cons, hk]

theorem lookupField_cons_neg (f : List Nat × JSON)
    (rest : List (List Nat × JSON)) (key : List Nat)
    (hk : (f.1 == key) = false) :
    lookupField (f :: rest) key = lookupField rest key := by
  simp [lookupField, List.find?_cons, hk]

theorem updateField_self (key : List Nat) :
    ∀ (fields : List (List Nat × JSON)) (v : JSON),
      lookupField fields key = some v → updateField fields key v = fields := by
  intro fields
  induction fields with
  | nil => intro v hv; simp [lookupField] at hv
  | cons f rest ih =>
    intro v hv
    by_cases hk : (f.1 == key) = true
    · rw [lookupField_cons_pos f rest key hk] at hv
      have hv2 : v = f.2 := by injection hv with h2; exact h2.symm
      rw [updateField, if_pos hk, hv2]
    · have hkf : (f.1 == key) = false := by simpa using hk
      rw [lookupField_cons_neg f rest key hkf] at hv
      rw [updateField, if_neg hk, ih v hv]

theorem map_maskField_updateField (key : List Nat) (g : JSON → JSON) :
    ∀ (fields : List (List Nat × JSON)) (v x : JSON),
      lookupField fields key = some x → g v = g x →
      (updateField fields key v).map
          (fun f => if f.1 == key then (f.1, g f.2) else f) =
        fields.map (fun f => if f.1 == key then (f.1, g f.2) else f) := by
  intro fields
  induction fields with
  | nil => intro v x hx _; simp [lookupField] at hx
  | cons f rest ih =>
    intro v x hx hvx
    by_cases hk : (f.1 == key) = true
    · rw [lookupField_cons_pos f rest key hk] at hx
      have hx2 : x = f.2 := by injection hx with h2; exact h2.symm
      rw [updateField, if_pos hk]
      simp only [List.map_cons, hk, if_true]
      rw [hvx, hx2]
    · have hkf : (f.1 == key) = false := by simpa using hk
      rw [lookupField_cons_neg f rest key hkf] at hx
      rw [updateField, if_neg hk]
      simp only [List.map_cons]
      rw [ih v x hx hvx]

theorem ok_tuple_parts (A : JSON) (B C : Nat) (D : List AuditRecord)
    (A2 : JSON) (B2 C2 : Nat) (D2 : List AuditRecord)
    (h : (Except.ok (A, B, C, D) :
        Except RunError (JSON × Nat × Nat × List AuditRecord)) =
      .ok (A2, B2, C2, D2)) :
    A = A2 ∧ B = B2 ∧ C = C2 ∧ D = D2 := by
  injection h with h2
  simpa using h2

theorem ok_listTuple_parts (A : List JSON) (B C : Nat) (D : List AuditRecord)
    (A2 : List JSON) (B2 C2 : Nat) (D2 : List AuditRecord)
    (h : (Except.ok (A, B, C, D) :
        Except RunError (List JSON × Nat × Nat × List AuditRecord)) =
      .ok (A2, B2, C2, D2)) :
    A = A2 ∧ B = B2 ∧ C = C2 ∧ D = D2 := by
  injection h with h2
  simpa using h2

theorem processOneAttachment_data (env : Env) (k : Nat)
    (fields : List (List Nat × JSON)) (original : JSON)
    (hlook : lookupField fields kData = some original) :
    processOneAttachment env k (.obj fields) =
      match rewrite_base64_note (env.styles k) (env.responses k) original with
      | .error e => .error e
      | .ok (newVal, log1) =>
        .ok (.obj (updateField fields kData newVal), 1, k + 1, log1) := by
  unfold processOneAttachment
  dsimp only
  rw [hlook]

theorem processOneAttachment_nodata (env : Env) (k : Nat)
    (fields : List (List Nat × JSON))
    (hlook : lookupField fields kData = none) :
    processOneAttachment env k (.obj fields) = .ok (.obj fields, 0, k, []) := by
  unfold processOneAttachment
  dsimp only
  rw [hlook]

theorem scrub_processOneAttachment (env : Env) (k : Nat) (pf pf' : JSON)
    (c1 k1 : Nat) (log1 : List AuditRecord)
    (h : processOneAttachment env k pf = .ok (pf', c1, k1, log1)) :
    scrubAttachment pf' = scrubAttachment pf := by
  cases pf with
  | obj fields =>
    cases hlook : lookupField fields kData with
    | none =>
      rw [processOneAttachment_nodata env k fields hlook] at h
      obtain ⟨rfl, -, -, -⟩ := ok_tuple_parts _ _ _ _ _ _ _ _ h
      rfl
    | some original =>
      rw [processOneAttachment_data env k fields original hlook] at h
      cases hrw : rewrite_base64_note (env.styles k) (env.responses k) original with
      | error e => rw [hrw] at h; cases h
      | ok p =>
        obtain ⟨newVal, logw⟩ := p
        rw [hrw] at h
        dsimp only at h
        obtain ⟨rfl, -, -, -⟩ := ok_tuple_parts _ _ _ _ _ _ _ _ h
        show scrubAttachment (.obj (updateField fields kData newVal)) =
          scrubAttachment (.obj fields)
        unfold scrubAttachment
        dsimp only
        exact congrArg JSON.obj (map_maskField_updateField kData
          (fun _ => JSON.null) fields newVal original hlook rfl)
  | null =>
    obtain ⟨rfl, -, -, -⟩ := ok_tuple_parts _ _ _ _ _ _ _ _ h
    rfl
  | bool b =>
    obtain ⟨rfl, -, -, -⟩ := ok_tuple_parts _ _ _ _ _ _ _ _ h
    rfl
  | num n =>
    obtain ⟨rfl, -, -, -⟩ := ok_tuple_parts _ _ _ _ _ _ _ _ h
    rfl
  | str s =>
    obtain ⟨rfl, -, -, -⟩ := ok_tuple_parts _ _ _ _ _ _ _ _ h
    rfl
  | arr xs =>
    obtain ⟨rfl, -, -, -⟩ := ok_tuple_parts _ _ _ _ _ _ _ _ h
    rfl

theorem scrub_processAttachments (env : Env) :
    ∀ (pfs : List JSON) (k : Nat) (out : List JSON) (c k2 : Nat)
      (log : List AuditRecord),
      processAttachments env k pfs = .ok (out, c, k2, log) →
      out.map scrubAttachment = pfs.map scrubAttachment := by
  intro pfs
  induction pfs with
  | nil =>
    intro k out c k2 log h
    obtain ⟨rfl, -, -, -⟩ := ok_listTuple_parts _ _ _ _ _ _ _ _ h
    rfl
  | cons pf rest ih =>
    intro k out c k2 log h
    rw [processAttachments] at h
    cases hone : processOneAttachment env k pf with
    | error e => rw [hone] at h; cases h
    | ok p =>
      obtain ⟨pf', c1, k1, log1⟩ := p
      rw [hone] at h
      dsimp only at h
      cases hrest : processAttachments env k1 rest with
      | error e => rw [hrest] at h; cases h
      | ok q =>
        obtain ⟨rest', cr, kr, logr⟩ := q
        rw [hrest] at h
        dsimp only at h
        obtain ⟨rfl, -, -, -⟩ := ok_listTuple_parts _ _ _ _ _ _ _ _ h
        simp only [List.map_cons]
        rw [scrub_processOneAttachment env k pf pf' c1 k1 log1 hone,
          ih k1 rest' cr kr logr hrest]

theorem scrub_process_resource (env : Env) (k : Nat) (res res' : JSON)
    (c k2 : Nat) (log : List AuditRecord)
    (h : process_resource env k res = .ok (res', c, k2, log)) :
    scrubResource res' = scrubResource res := by
  cases res with
  | obj fields =>
    cases hlook : lookupField fields kPresentedForm with
    | none =>
      unfold process_resource at h
      dsimp only at h
      rw [hlook] at h
      obtain ⟨rfl, -, -, -⟩ := ok_tuple_parts _ _ _ _ _ _ _ _ h
      rfl
    | some pform =>
      cases pform with
      | arr pfs =>
        unfold process_resource at h
        dsimp only at h
        rw [hlook] at h
        dsimp only at h
        cases hpa : processAttachments env k pfs with
        | error e => rw [hpa] at h; cases h
        | ok q =>
          obtain ⟨pfs', ca, ka, loga⟩ := q
          rw [hpa] at h
          dsimp only at h
          obtain ⟨rfl, -, -, -⟩ := ok_tuple_parts _ _ _ _ _ _ _ _ h
          show scrubResource (.obj (updateField fields kPresentedForm (.arr pfs'))) =
            scrubResource (.obj fields)
          unfold scrubResource
          dsimp only
          refine congrArg JSON.obj (map_maskField_updateField kPresentedForm
            scrubPF fields (.arr pfs') (.arr pfs) hlook ?_)
          show scrubPF (.arr pfs') = scrubPF (.arr pfs)
          unfold scrubPF
          dsimp only
          exact congrArg JSON.arr
            (scrub_processAttachments env pfs k pfs' ca ka loga hpa)
      | null =>
        unfold process_resource at h
        dsimp only at h
        rw [hlook] at h
        obtain ⟨rfl, -, -, -⟩ := ok_tuple_parts _ _ _ _ _ _ _ _ h
        rfl
      | bool b =>
        unfold process_resource at h
        dsimp only at h
        rw [hlook] at h
        obtain ⟨rfl, -, -, -⟩ := ok_tuple_parts _ _ _ _ _ _ _ _ h
        rfl
      | num n =>
        unfold process_resource at h
        dsimp only at h
        rw [hlook] at h
        obtain ⟨rfl, -, -, -⟩ := ok_tuple_parts _ _ _ _ _ _ _ _ h
        rfl
      | str s =>
        unfold process_resource at h
        dsimp only at h
        rw [hlook] at h
        obtain ⟨rfl, -, -, -⟩ := ok_tuple_parts _ _ _ _ _ _ _ _ h
        rfl
      | obj fields2 =>
        unfold process_resource at h
        dsimp only at h
        rw [hlook] at h
        obtain ⟨rfl, -, -, -⟩ := ok_tuple_parts _ _ _ _ _ _ _ _ h
        rfl
  | null =>
    obtain ⟨rfl, -, -, -⟩ := ok_tuple_parts _ _ _ _ _ _ _ _ h
    rfl
  | bool b =>
    obtain ⟨rfl, -, -, -⟩ := ok_tuple_parts _ _ _ _ _ _ _ _ h
    rfl
  | num n =>
    obtain ⟨rfl, -, -, -⟩ := ok_tuple_parts _ _ _ _ _ _ _ _ h
    rfl
  | str s =>
    obtain ⟨rfl, -, -, -⟩ := ok_tuple_parts _ _ _ _ _ _ _ _ h
    rfl
  | arr xs =>
    obtain ⟨rfl, -, -, -⟩ := ok_tuple_parts _ _ _ _ _ _ _ _ h
    rfl

theorem scrub_processOneEntry (env : Env) (k : Nat) (e e' : JSON)
    (c1 k1 : Nat) (log1 : List AuditRecord)
    (h : processOneEntry env k e = .ok (e', c1, k1, log1)) :
    scrubEntry e' = scrubEntry e := by
  cases e with
  | obj fields =>
    cases hlook : lookupField fields kResource with
    | none =>
      unfold processOneEntry at h
      dsimp only at h
      rw [hlook] at h
      obtain ⟨rfl, -, -, -⟩ := ok_tuple_parts _ _ _ _ _ _ _ _ h
      rfl
    | some res =>
      unfold processOneEntry at h
      dsimp only at h
      rw [hlook] at h
      dsimp only at h
      by_cases htr : truthy res = true
      · rw [if_pos htr] at h
        cases hres : process_resource env k res with
        | error e2 => rw [hres] at h; cases h
        | ok q =>
          obtain ⟨res', cr, kr, logr⟩ := q
          rw [hres] at h
          dsimp only at h
          obtain ⟨rfl, -, -, -⟩ := ok_tuple_parts _ _ _ _ _ _ _ _ h
          show scrubEntry (.obj (updateField fields kResource res')) =
            scrubEntry (.obj fields)
          unfold scrubEntry
          dsimp only
          exact congrArg JSON.obj (map_maskField_updateField kResource
            scrubResource fields res' res hlook
            (scrub_process_resource env k res res' cr kr logr hres))
      · rw [if_neg htr] at h
        obtain ⟨rfl, -, -, -⟩ := ok_tuple_parts _ _ _ _ _ _ _ _ h
        rfl
  | null =>
    obtain ⟨rfl, -, -, -⟩ := ok_tuple_parts _ _ _ _ _ _ _ _ h
    rfl
  | bool b =>
    obtain ⟨rfl, -, -, -⟩ := ok_tuple_parts _ _ _ _ _ _ _ _ h
    rfl
  | num n =>
    obtain ⟨rfl, -, -, -⟩ := ok_tuple_parts _ _ _ _ _ _ _ _ h
    rfl
  | str s =>
    obtain ⟨rfl, -, -, -⟩ := ok_tuple_parts _ _ _ _ _ _ _ _ h
    rfl
  | arr xs =>
    obtain ⟨rfl, -, -, -⟩ := ok_tuple_parts _ _ _ _ _ _ _ _ h
    rfl

theorem scrub_processEntries (env : Env) :
    ∀ (es : List JSON) (k : Nat) (out : List JSON) (c k2 : Nat)
      (log : List AuditRecord),
      processEntries env k es = .ok (out, c, k2, log) →
      out.map scrubEntry = es.map scrubEntry := by
  intro es
  induction es with
  | nil =>
    intro k out c k2 log h
    obtain ⟨rfl, -, -, -⟩ := ok_listTuple_parts _ _ _ _ _ _ _ _ h
    rfl
  | cons e rest ih =>
    intro k out c k2 log h
    rw [processEntries] at h
    cases hone : processOneEntry env k e with
    | error err => rw [hone] at h; cases h
    | ok p =>
      obtain ⟨e', c1, k1, log1⟩ := p
      rw [hone] at h
      dsimp only at h
      cases hrest : processEntries env k1 rest with
      | error err => rw [hrest] at h; cases h
      | ok q =>
        obtain ⟨rest', cr, kr, logr⟩ := q
        rw [hrest] at h
        dsimp only at h
        obtain ⟨rfl, -, -, -⟩ := ok_listTuple_parts _ _ _ _ _ _ _ _ h
        simp only [List.map_cons]
        rw [scrub_processOneEntry env k e e' c1 k1 log1 hone,
          ih k1 rest' cr kr logr hrest]

/-- C7: for every input document, whatever `process_file` outputs differs
from the input at most in `entry[*].resource.presentedForm[*].data` values:
masking exactly those values in input and output gives identical documents,
so entry order, resources without a `presentedForm` list and every other
field are unchanged. -/
theorem structural_preservation (env : Env) (k : Nat) (doc doc' : JSON)
    (c k2 : Nat) (log : List AuditRecord)
    (h : process_file env k doc = .ok (doc', c, k2, log)) :
    scrubDoc doc' = scrubDoc doc := by
  cases doc with
  | obj fields =>
    cases hlook : lookupField fields kEntry with
    | none =>
      unfold process_file at h
      dsimp only at h
      rw [hlook] at h
      obtain ⟨rfl, -, -, -⟩ := ok_tuple_parts _ _ _ _ _ _ _ _ h
      rfl
    | some entv =>
      cases entv with
      | arr entries =>
        unfold process_file at h
        dsimp only at h
        rw [hlook] at h
        dsimp only at h
        cases hpe : processEntries env k entries with
        | error e => rw [hpe] at h; cases h
        | ok q =>
          obtain ⟨entries', ce, ke, loge⟩ := q
          rw [hpe] at h
          dsimp only at h
          obtain ⟨rfl, -, -, -⟩ := ok_tuple_parts _ _ _ _ _ _ _ _ h
          show scrubDoc (.obj (updateField fields kEntry (.arr entries'))) =
            scrubDoc (.obj fields)
          unfold scrubDoc
          dsimp only
          refine congrArg JSON.obj (map_maskField_updateField kEntry
            scrubEntries fields (.arr entries') (.arr entries) hlook ?_)
          show scrubEntries (.arr entries') = scrubEntries (.arr entries)
          unfold scrubEntries
          dsimp only
          exact congrArg JSON.arr
            (scrub_processEntries env entries k entries' ce ke loge hpe)
      | null =>
        unfold process_file at h
        dsimp only at h
        rw [hlook] at h
        obtain ⟨rfl, -, -, -⟩ := ok_tuple_parts _ _ _ _ _ _ _ _ h
        rfl
      | bool b =>
        unfold process_file at h
        dsimp only at h
        rw [hlook] at h
        obtain ⟨rfl, -, -, -⟩ := ok_tuple_parts _ _ _ _ _ _ _ _ h
        rfl
      | num n =>
        unfold process_file at h
        dsimp only at h
        rw [hlook] at h
        obtain ⟨rfl, -, -, -⟩ := ok_tuple_parts _ _ _ _ _ _ _ _ h
        rfl
      | str s =>
        unfold process_file at h
        dsimp only at h
        rw [hlook] at h
        obtain ⟨rfl, -, -, -⟩ := ok_tuple_parts _ _ _ _ _ _ _ _ h
        rfl
      | obj fields2 =>
        unfold process_file at h
        dsimp only at h
        rw [hlook] at h
        obtain ⟨rfl, -, -, -⟩ := ok_tuple_parts _ _ _ _ _ _ _ _ h
        rfl
  | null =>
    obtain ⟨rfl, -, -, -⟩ := ok_tuple_parts _ _ _ _ _ _ _ _ h
    rfl
  | bool b =>
    obtain ⟨rfl, -, -, -⟩ := ok_tuple_parts _ _ _ _ _ _ _ _ h
    rfl
  | num n =>
    obtain ⟨rfl, -, -, -⟩ := ok_tuple_parts _ _ _ _ _ _ _ _ h
    rfl
  | str s =>
    obtain ⟨rfl, -, -, -⟩ := ok_tuple_parts _ _ _ _ _ _ _ _ h
    rfl
  | arr xs =>
    obtain ⟨rfl, -, -, -⟩ := ok_tuple_parts _ _ _ _ _ _ _ _ h
    rfl

/-! Concrete environments and documents for witnesses and scenarios. -/

/-- Environment whose generator always answers with the fixed text
`"Rewritten note."`. -/
def envFixed : Env :=
  ⟨fun _ => pts "plain style", fun _ _ => some (pts "Rewritten note.")⟩

/-- Environment whose every generation attempt raises a transport error. -/
def envFail : Env := ⟨fun _ => [], fun _ _ => none⟩

/-- A validly encoded attachment token. -/
def tokenOne : List Nat := encodeToken (pts "Patient resting comfortably.")

/-- A second validly encoded attachment token. -/
def tokenTwo : List Nat := encodeToken (pts "Mild fever this morning.")

/-- The re-encoding of the fixed generator answer. -/
def tokenNew : List Nat := encodeToken (pts "Rewritten note.")

/-- A one-attachment document used in scenario witnesses. -/
def docNote : JSON :=
  .obj [(kEntry, .arr [.obj [(kResource,
    .obj [(kPresentedForm, .arr [.obj [(kData, .str tokenOne)]])])]])]

/-- `docNote` after its attachment was rewritten to the fixed answer. -/
def docNoteOut : JSON :=
  .obj [(kEntry, .arr [.obj [(kResource,
    .obj [(kPresentedForm, .arr [.obj [(kData, .str tokenNew)]])])]])]

/-- The audit log of processing `docNote` under `envFixed`. -/
def logNote : List AuditRecord :=
  [⟨build_prompt (pts "Patient resting comfortably.") (pts "plain style"),
    pts "Rewritten note."⟩]

/-- C1 counterexample: a resource holding a single attachment whose token
`"AAAAA"` fails base64 decoding.  The token is returned byte-identical, yet
`process_resource` reports rewrite count 1, not 0: `count += 1` (line 108)
runs even for a decode-failed attachment, refuting the claim that the
counter is not incremented. -/
theorem decode_failure_count_counterexample :
    process_resource envFail 0
        (.obj [(kPresentedForm, .arr [.obj [(kData, .str (pts "AAAAA"))]])]) =
      .ok (.obj [(kPresentedForm, .arr [.obj [(kData, .str (pts "AAAAA"))]])],
        1, 1, []) ∧
      (1 : Nat) ≠ 0 :=
  ⟨rfl, by decide⟩

/-- C1 (amended): for every attachment value on which decoding fails,
`rewrite_base64_note` returns the input byte-identical and appends no audit
record — but the enclosing document's rewrite counter IS incremented for
that attachment: the counter counts attachments bearing a `"data"` key, not
successful rewrites. -/
theorem decode_failure_nonmutation_amended (style : List Nat)
    (oracle : Nat → Option (List Nat)) (v : JSON)
    (hv : decodeValue v = none) :
    rewrite_base64_note style oracle v = .ok (v, []) ∧
      (∀ (env : Env) (k : Nat) (fields : List (List Nat × JSON)),
        lookupField fields kData = some v →
        processOneAttachment env k (.obj fields) =
          .ok (.obj fields, 1, k + 1, [])) := by
  have hrw : ∀ (s : List Nat) (o : Nat → Option (List Nat)),
      rewrite_base64_note s o v = .ok (v, []) := by
    intro s o
    unfold rewrite_base64_note
    rw [hv]
  refine ⟨hrw style oracle, ?_⟩
  intro env k fields hlook
  rw [processOneAttachment_data env k fields v hlook, hrw]
  dsimp only
  rw [updateField_self kData fields v hlook]

theorem decode_failure_nonmutation_amended_witness :
    decodeValue (JSON.str (pts "AAAAA")) = none ∧
      rewrite_base64_note [] (fun _ => none) (JSON.str (pts "AAAAA")) =
        .ok (JSON.str (pts "AAAAA"), []) ∧
      processOneAttachment envFail 0
          (.obj [(kData, JSON.str (pts "AAAAA"))]) =
        .ok (.obj [(kData, JSON.str (pts "AAAAA"))], 1, 1, []) := by
  have h := decode_failure_nonmutation_amended [] (fun _ => none)
    (JSON.str (pts "AAAAA")) rfl
  exact ⟨rfl, h.1, h.2 envFail 0 _ rfl⟩

/-- C3: a terminal generation failure is caught nowhere: in a batch of three
documents where the first processes fine and the second hits the exhausted
retries error, `main`'s loop writes the first document's output only, writes
nothing for the second or third, and the run ends with the error; and
`rewrite_base64_note` propagates `call_openai`'s terminal failure rather
than catching it. -/
theorem terminal_failure_aborts_batch (env : Env) (n1 n2 n3 : List Nat)
    (d1 d2 d3 d1' : JSON) (c1 k1 : Nat) (log1 : List AuditRecord)
    (e : RunError)
    (h1 : process_file env 0 d1 = .ok (d1', c1, k1, log1))
    (h2 : process_file env k1 d2 = .error e) :
    runBatch env 0 [(n1, d1), (n2, d2), (n3, d3)] = ([(n1, d1')], some e) ∧
      (∀ (style : List Nat) (oracle : Nat → Option (List Nat)) (v : JSON)
        (decoded : List Nat), decodeValue v = some decoded →
        (call_openai oracle (build_prompt decoded style)).ok = none →
        rewrite_base64_note style oracle v = .error .exhaustedRetries) := by
  constructor
  · rw [runBatch, h1]
    dsimp only
    rw [runBatch, h2]
  · intro style oracle v decoded hdv hok
    rw [rewrite_base64_note_decode_ok style oracle v decoded hdv, hok]

theorem terminal_failure_aborts_batch_witness :
    runBatch envFail 0 [(pts "a.json", JSON.null), (pts "b.json", docNote),
        (pts "c.json", JSON.null)] =
      ([(pts "a.json", JSON.null)], some .exhaustedRetries) :=
  (terminal_failure_aborts_batch envFail (pts "a.json") (pts "b.json")
    (pts "c.json") JSON.null docNote JSON.null JSON.null 0 0 []
    .exhaustedRetries rfl rfl).1

theorem structural_preservation_witness :
    process_file envFixed 0 docNote = .ok (docNoteOut, 1, 1, logNote) ∧
      scrubDoc docNoteOut = scrubDoc docNote :=
  ⟨rfl, structural_preservation envFixed 0 docNote docNoteOut 1 1 logNote rfl⟩

/-- C10: a `presentedForm` element without a `"data"` key is left entirely
unchanged by `process_resource`'s loop, contributes nothing to the rewrite
count, consumes no generation slot and appends no audit record: processing
`pf :: rest` equals processing `rest` with `pf` prepended untouched. -/
theorem attachment_without_data_untouched (env : Env) (k : Nat)
    (fields : List (List Nat × JSON)) (rest : List JSON)
    (h : lookupField fields kData = none) :
    processOneAttachment env k (.obj fields) = .ok (.obj fields, 0, k, []) ∧
      processAttachments env k (JSON.obj fields :: rest) =
        (processAttachments env k rest).map
          (fun r => (JSON.obj fields :: r.1, r.2.1, r.2.2.1, r.2.2.2)) := by
  refine ⟨processOneAttachment_nodata env k fields h, ?_⟩
  rw [processAttachments, processOneAttachment_nodata env k fields h]
  dsimp only
  cases hr : processAttachments env k rest with
  | error e => rfl
  | ok q =>
    obtain ⟨rest', c, k2, log⟩ := q
    dsimp only [Except.map]
    simp

theorem attachment_without_data_untouched_witness :
    lookupField [(pts "contentType", JSON.str (pts "text/plain"))] kData =
        none ∧
      processOneAttachment envFail 0
          (.obj [(pts "contentType", JSON.str (pts "text/plain"))]) =
        .ok (.obj [(pts "contentType", JSON.str (pts "text/plain"))],
          0, 0, []) :=
  ⟨rfl, (attachment_without_data_untouched envFail 0
    [(pts "contentType", JSON.str (pts "text/plain"))] [] rfl).1⟩

/-- The two-resource scenario document of C8: one resource with a
`presentedForm` of two validly encoded attachments, one resource without
the field. -/
def doc8in : JSON :=
  .obj [(pts "resourceType", .str (pts "Bundle")),
    (kEntry, .arr [
      .obj [(kResource, .obj [
        (pts "resourceType", .str (pts "DiagnosticReport")),
        (kPresentedForm, .arr [
          .obj [(pts "contentType", .str (pts "text/plain")),
            (kData, .str tokenOne)],
          .obj [(kData, .str tokenTwo)]])])],
      .obj [(kResource, .obj [
        (pts "resourceType", .str (pts "Patient")),
        (pts "id", .str (pts "p1"))])]])]

/-- The expected output of processing `doc8in` against the fixed generator:
both attachment tokens replaced by the re-encoding of
`"Rewritten note."`, everything else identical — the field-less `Patient`
resource in particular. -/
def doc8out : JSON :=
  .obj [(pts "resourceType", .str (pts "Bundle")),
    (kEntry, .arr [
      .obj [(kResource, .obj [
        (pts "resourceType", .str (pts "DiagnosticReport")),
        (kPresentedForm, .arr [
          .obj [(pts "contentType", .str (pts "text/plain")),
            (kData, .str tokenNew)],
          .obj [(kData, .str tokenNew)]])])],
      .obj [(kResource, .obj [
        (pts "resourceType", .str (pts "Patient")),
        (pts "id", .str (pts "p1"))])]])]

/-- The entry list of a document, empty when absent. -/
def entriesOf : JSON → List JSON
  | .obj fields =>
    match lookupField fields kEntry with
    | some (.arr xs) => xs
    | _ => []
  | _ => []

/-- C8: processing the two-resource document against a generator that always
returns `"Rewritten note."` yields exactly `doc8out` with rewrite count 2;
both output attachments decode back to `"Rewritten note."`, and the second
entry — the resource without a `presentedForm` field — is byte-identical
between input and output. -/
theorem two_attachment_scenario :
    process_file envFixed 0 doc8in =
      .ok (doc8out, 2, 2,
        [⟨build_prompt (pts "Patient resting comfortably.") (pts "plain style"),
          pts "Rewritten note."⟩,
         ⟨build_prompt (pts "Mild fever this morning.") (pts "plain style"),
          pts "Rewritten note."⟩]) ∧
      decodeToken tokenNew = some (pts "Rewritten note.") ∧
      (entriesOf doc8out).getD 1 .null = (entriesOf doc8in).getD 1 .null :=
  ⟨rfl, rfl, rfl⟩

end NoiseNotes
